import Mathlib

/-
Shallow embedding of the xenarch terrain-analysis pipeline
(fractal box-counting estimator, terrain analyzer, terrain splitter,
metrics generator).

Numeric modelling conventions, used consistently below:
* Python and numpy floating-point values are modelled as exact rationals;
  decimal literals of the source such as 0.5, 0.9 and 0.1 become the exact
  rationals 1/2, 9/10 and 1/10.
* A NaN cell of a raster is modelled as `none` in `Option ℚ`.
* Comparisons of the source that involve a standard deviation
  (a square root) are expressed by comparing squares, which is equivalent
  because both sides of each such comparison are nonnegative.
* numpy integer truncation `int(x)` of a nonnegative value is the floor.
* A numpy 2D array is a structure with explicit dimensions and a total
  cell function; only indices below the dimensions are ever read.
-/

namespace Xenarch

/-- A numpy 2D array of floats: explicit dimensions plus a cell function.
`none` models a NaN entry. -/
structure NpGrid where
  height : ℕ
  width : ℕ
  data : ℕ → ℕ → Option ℚ

/-- `image.size` of numpy: the number of cells. -/
def NpGrid.size (g : NpGrid) : ℕ := g.height * g.width

/-- Row-major list of all cells of the array. -/
def cellsList (g : NpGrid) : List (Option ℚ) :=
  (List.range g.height).flatMap (fun i => (List.range g.width).map (fun j => g.data i j))

/-- The non-NaN cells, in row-major order.  `validCells g = []` states that
the array is empty or entirely NaN, exactly the condition
`np.all(np.isnan(image))` (numpy `all` over an empty array is true). -/
def validCells (g : NpGrid) : List ℚ :=
  (cellsList g).filterMap id

/-- Minimum of two rationals through the primitive comparison (proved
equal to `min` below; stated this way so that the kernel evaluates it
cheaply on concrete inputs). -/
def ratMin (a b : ℚ) : ℚ := if Rat.blt b a then b else a

/-- Maximum of two rationals through the primitive comparison (proved
equal to `max` below). -/
def ratMax (a b : ℚ) : ℚ := if Rat.blt a b then b else a

/-- One pass of a balanced fold: combines adjacent pairs, halving the
list length (rounding up). -/
def halveStep (f : ℚ → ℚ → ℚ) : List ℚ → List ℚ
  | a :: b :: t => f a b :: halveStep f t
  | l => l

/-- Fuel-driven balanced fold of an associative operation over a list:
the combination tree has logarithmic depth, so the kernel evaluates it
on concrete inputs without deep recursion.  With enough fuel (the list
length always suffices) this equals the ordinary linear fold; proved
below for the operations used. -/
def foldBalanced (f : ℚ → ℚ → ℚ) (d : ℚ) : ℕ → List ℚ → ℚ
  | _, [] => d
  | _, [a] => a
  | 0, a :: _ :: _ => a
  | fuel + 1, a :: b :: t => foldBalanced f d fuel (halveStep f (a :: b :: t))

/-- Sum of a list of rationals (balanced; proved equal to `List.sum`). -/
def qSum (l : List ℚ) : ℚ := foldBalanced (· + ·) 0 l.length l

/-- Minimum of a list of rationals, 0 on the empty list (only used on
nonempty lists; models `np.nanmin` over the valid cells). -/
def qMin (l : List ℚ) : ℚ := foldBalanced ratMin 0 l.length l

/-- Maximum of a list of rationals, 0 on the empty list (models `np.nanmax`
over the valid cells). -/
def qMax (l : List ℚ) : ℚ := foldBalanced ratMax 0 l.length l

/-- Mean of a list of rationals (models `np.mean` / `np.nanmean` over the
valid cells; division by zero only occurs for the empty list). -/
def qMean (l : List ℚ) : ℚ := qSum l / l.length

/-- Population variance of a list of rationals; `np.std` and `np.nanstd`
(with the default ddof 0) are the square root of this value. -/
def qVar (l : List ℚ) : ℚ := qSum (l.map (fun x => (x - qMean l) ^ 2)) / l.length

/-- numpy slice `g[y : y + hh, x : x + ww]` (also a rasterio in-bounds
window read): clamped at the array bounds. -/
def crop (g : NpGrid) (y x hh ww : ℕ) : NpGrid :=
  ⟨min hh (g.height - y), min ww (g.width - x), fun i j => g.data (y + i) (x + j)⟩

/-- The list produced by the Python loop
`range(0, extent - size + 1, step)` for a positive `step`: the start
offsets of windows of length `size` inside `extent`.  For `step = 0` the
Python `range` call would raise, the value `[]` here is never used under
the preconditions of the theorems below. -/
def gridStarts (extent size step : ℕ) : List ℕ :=
  if size ≤ extent ∧ 1 ≤ step then List.range' 0 ((extent - size) / step + 1) step else []

namespace FractalAnalyzer

/-- Min-max normalized value of cell `(i, j)`:
`(image - nanmin) / (nanmax - nanmin)` followed by `np.nan_to_num`.
When the grid is constant the division is 0/0, a float NaN, which
`nan_to_num` also sends to 0; rational division by zero agrees. -/
def normVal (g : NpGrid) (i j : ℕ) : ℚ :=
  let vc := validCells g
  match g.data i j with
  | none => 0
  | some v => (v - qMin vc) / (qMax vc - qMin vc)

/-- All normalized cells in row-major order (the array `image` after
lines 19-20 of fractal.py). -/
def normAll (g : NpGrid) : List ℚ :=
  (List.range g.height).flatMap (fun i => (List.range g.width).map (fun j => normVal g i j))

/-- `np.ptp` (max minus min) over the box with box index `(bi, bj)` of
side `b` in the normalized image. -/
def boxPtp (g : NpGrid) (b bi bj : ℕ) : ℚ :=
  let cells := (List.range b).flatMap
    (fun di => (List.range b).map (fun dj => normVal g (bi * b + di) (bj * b + dj)))
  qMax cells - qMin cells

/-- The box indices `(bi, bj)` of the lattice of boxes of side `b`:
leftover rows and columns that do not fill a whole box are discarded. -/
def boxIndices (g : NpGrid) (b : ℕ) : List (ℕ × ℕ) :=
  (List.range (g.height / b)).flatMap (fun bi => (List.range (g.width / b)).map (fun bj => (bi, bj)))

/-- `FractalAnalyzer.box_count` of fractal.py.  A box is counted when its
variation exceeds `0.1 * np.nanstd(image)` over the normalized image;
both sides being nonnegative this is compared here on squares:
`variation ^ 2 > var / 100`.  The `b = 0` disjunct mirrors the entries
`box_size` of the shape tuple tested by `any(s == 0 for s in shape)`
(a call with `b = 0` on a nonempty grid would in fact raise a
ZeroDivisionError in Python one line earlier; no caller passes 0). -/
def box_count (g : NpGrid) (b : ℕ) : ℕ :=
  if validCells g = [] then 0
  else if g.height / b = 0 ∨ g.width / b = 0 ∨ b = 0 then 0
  else
    (boxIndices g b).countP
      (fun p => decide (qVar (normAll g) / 100 < (boxPtp g b p.1 p.2) ^ 2))

/-- `min(image.shape)`. -/
def min_shape (g : NpGrid) : ℕ := min g.height g.width

/-- Fuel-driven floor base-2 logarithm, definitionally reducible; proved
equal to `Nat.log 2` below. -/
def log2fuel : ℕ → ℕ → ℕ
  | 0, _ => 0
  | fuel + 1, n => if n < 2 then 0 else log2fuel fuel (n / 2) + 1

/-- Floor base-2 logarithm (`Nat.log 2`, in a form the kernel computes). -/
def log2floor (n : ℕ) : ℕ := log2fuel n n

/-- `int(np.log2(min(image.shape)))` for a nonempty image. -/
def max_power (g : NpGrid) : ℕ := log2floor (min_shape g)

/-- `box_sizes = [2**i for i in range(2, max_power)]`. -/
def box_sizes (g : NpGrid) : List ℕ :=
  (List.range' 2 (max_power g - 2)).map (fun i => 2 ^ i)

/-- The pairs `(size, count)` retained by the loop of
compute_fractal_dimension: the box sizes with a nonzero box count,
in increasing order of size. -/
def valid_pairs (g : NpGrid) : List (ℕ × ℕ) :=
  (box_sizes g).filterMap (fun b =>
    let c := box_count g b
    if 0 < c then some (b, c) else none)

/-- Mean of the x coordinates of a point list. -/
def ptsMeanX (pts : List (ℚ × ℚ)) : ℚ := qMean (pts.map Prod.fst)

/-- Mean of the y coordinates of a point list. -/
def ptsMeanY (pts : List (ℚ × ℚ)) : ℚ := qMean (pts.map Prod.snd)

/-- Sum of squared deviations of x.  scipy linregress uses the biased
covariances, which divide this and the two analogous sums by the number
of points; the two ratios taken below are unchanged by that common
factor, so the plain sums are used. -/
def ssxm (pts : List (ℚ × ℚ)) : ℚ :=
  (pts.map (fun p => (p.1 - ptsMeanX pts) ^ 2)).sum

/-- Sum of squared deviations of y. -/
def ssym (pts : List (ℚ × ℚ)) : ℚ :=
  (pts.map (fun p => (p.2 - ptsMeanY pts) ^ 2)).sum

/-- Sum of products of deviations. -/
def ssxym (pts : List (ℚ × ℚ)) : ℚ :=
  (pts.map (fun p => (p.1 - ptsMeanX pts) * (p.2 - ptsMeanY pts))).sum

/-- The ordinary least squares slope `ssxym / ssxm` of scipy linregress;
`none` models the float NaN produced when `ssxm` is zero (then `ssxym`
is zero as well and the float division is 0/0). -/
def olsSlope (pts : List (ℚ × ℚ)) : Option ℚ :=
  if ssxm pts = 0 then none else some (ssxym pts / ssxm pts)

/-- The negated slope, the value returned as the fractal dimension. -/
def negOlsSlope (pts : List (ℚ × ℚ)) : Option ℚ :=
  (olsSlope pts).map (fun s => -s)

/-- The squared correlation coefficient of scipy linregress:
`r = ssxym / sqrt(ssxm * ssym)`, with `r = 0` when either variance
vanishes; squaring removes the square root, so this value is rational. -/
def olsRsq (pts : List (ℚ × ℚ)) : ℚ :=
  if ssxm pts = 0 ∨ ssym pts = 0 then 0
  else (ssxym pts) ^ 2 / (ssxm pts * ssym pts)

/-- The regression points: `(log size, log count)` over the valid sizes.
The float logarithm of numpy is abstracted as a function `lg : ℕ → ℚ`
applied to the integer sizes and counts. -/
def logPoints (lg : ℕ → ℚ) (g : NpGrid) : List (ℚ × ℚ) :=
  (valid_pairs g).map (fun p => (lg p.1, lg p.2))

/-- `FractalAnalyzer.compute_fractal_dimension` of fractal.py.
The result pair is (fractal dimension, r squared); the fractal
dimension is `none` when the float computation would produce NaN.
Raising `ValueError` is modelled by `Except.error` with the message of
the source. -/
def compute_fractal_dimension (lg : ℕ → ℚ) (g : NpGrid) :
    Except String (Option ℚ × ℚ) :=
  if g.size = 0 then .error "Empty image provided"
  else if box_sizes g = [] then .error "No valid box sizes for image dimensions"
  else if (valid_pairs g).length < 2 then .error "Not enough valid counts for regression"
  else .ok (negOlsSlope (logPoints lg g), olsRsq (logPoints lg g))

/-- True exactly on the error results. -/
def isErr {ε α : Type} : Except ε α → Bool
  | .error _ => true
  | .ok _ => false

end FractalAnalyzer

/-- A value inside a persisted JSON document.  `root q` stands for the
square root of `q` (a numpy standard deviation); `nanv` for a float NaN;
`extVal` for a value taken verbatim from an external library object
(coordinate reference system, geo transform), not modelled further. -/
inductive JVal where
  | num (q : ℚ)
  | root (q : ℚ)
  | nanv
  | intv (n : ℕ)
  | pair (a b : ℕ)
  | triple (a b c : ℕ)
  | str (s : String)
  | extVal (tag : String)
deriving Repr, DecidableEq

/-- The fractal dimension as stored in a JSON document. -/
def jvalOfFd : Option ℚ → JVal
  | none => .nanv
  | some v => .num v

namespace TerrainAnalyzer

/-- The metrics dict built in `TerrainAnalyzer.process_chunk` for a kept
tile.  The formatted string id `chunk_CCC_grid_XXXXX_YYYYY` is modelled
by the triple of integers it is formatted from; `var_elevation` is the
square of the stored `std_elevation`. -/
structure ChunkMetrics where
  grid_id : ℕ × ℕ × ℕ
  position : ℕ × ℕ
  size : ℕ
  fractal_dimension : ℚ
  r_squared : ℚ
  mean_elevation : ℚ
  var_elevation : ℚ
deriving Repr, DecidableEq

/-- `stride = max(self.grid_size // 4, 1)`. -/
def stride (grid_size : ℕ) : ℕ := max (grid_size / 4) 1

/-- One iteration of the tile loop of `TerrainAnalyzer.process_chunk` at
offsets `(y, x)` inside the chunk: `none` when the tile is skipped
(empty or entirely NaN, estimator failure, NaN fractal dimension, or
r squared not above 0.5), otherwise the metrics dict. -/
def tile_result (lg : ℕ → ℚ) (grid_size : ℕ) (data : NpGrid)
    (start_y chunk_id y x : ℕ) : Option ChunkMetrics :=
  let grid := crop data y x grid_size grid_size
  if grid.size = 0 ∨ validCells grid = [] then none
  else
    match FractalAnalyzer.compute_fractal_dimension lg grid with
    | .error _ => none
    | .ok (fd, rsq) =>
      match fd with
      | none => none
      | some fdv =>
        if 1 / 2 < rsq then
          some { grid_id := (chunk_id, x, start_y + y),
                 position := (x, start_y + y),
                 size := grid_size,
                 fractal_dimension := fdv,
                 r_squared := rsq,
                 mean_elevation := qMean (validCells grid),
                 var_elevation := qVar (validCells grid) }
        else none

/-- The start offsets `(y, x)` visited by the nested loops of
`process_chunk`. -/
def tileStarts (grid_size : ℕ) (data : NpGrid) : List (ℕ × ℕ) :=
  (gridStarts data.height grid_size (stride grid_size)).flatMap
    (fun y => (gridStarts data.width grid_size (stride grid_size)).map (fun x => (y, x)))

/-- `TerrainAnalyzer.process_chunk` of terrain.py: the list of metrics of
the kept tiles of one chunk, in loop order. -/
def process_chunk (lg : ℕ → ℚ) (grid_size : ℕ) (data : NpGrid)
    (start_y chunk_id : ℕ) : List ChunkMetrics :=
  (tileStarts grid_size data).filterMap
    (fun p => tile_result lg grid_size data start_y chunk_id p.1 p.2)

/-- The flattened leaf fields of the JSON document written by
`TerrainAnalyzer.save_grid_data` for one kept tile: a top level
`grid_id` and the six entries of the nested `metrics` object. -/
def chunk_json (m : ChunkMetrics) : List (String × JVal) :=
  [("grid_id", .triple m.grid_id.1 m.grid_id.2.1 m.grid_id.2.2),
   ("fractal_dimension", .num m.fractal_dimension),
   ("r_squared", .num m.r_squared),
   ("mean_elevation", .num m.mean_elevation),
   ("std_elevation", .root m.var_elevation),
   ("position", .pair m.position.1 m.position.2),
   ("size", .intv m.size)]

/-- The chunk summary yielded by `TerrainAnalyzer.analyze` for one chunk
with at least one kept tile; `var_fractal_dim` is the square of the
reported `std_fractal_dim`. -/
structure ChunkResult where
  chunk_id : ℕ
  start_y : ℕ
  end_y : ℕ
  all_regions : List ChunkMetrics
  interesting_regions : List ChunkMetrics
  mean_fractal_dim : ℚ
  var_fractal_dim : ℚ
deriving Repr, DecidableEq

/-- The filter of `analyze` lines 113-117:
`abs(fd - mean_fd) > 2 * std_fd and r_squared > 0.9`; the first
comparison of nonnegative floats is expressed on squares:
`(fd - mean)^2 > 4 * var`. -/
def interestingTest (meanFd varFd : ℚ) (r : ChunkMetrics) : Bool :=
  decide (4 * varFd < (r.fractal_dimension - meanFd) ^ 2) &&
    decide (9 / 10 < r.r_squared)

/-- One iteration of the chunk loop of `TerrainAnalyzer.analyze`:
the chunk rows are read with one grid of overlap, processed, and a
summary is yielded only when at least one tile was kept. -/
def chunk_result (lg : ℕ → ℚ) (grid_size chunk_size : ℕ) (src : NpGrid)
    (chunk_id start_y : ℕ) : Option ChunkResult :=
  let end_y := min (start_y + chunk_size + grid_size) src.height
  let chunk := crop src start_y 0 (end_y - start_y) src.width
  let results := process_chunk lg grid_size chunk start_y chunk_id
  if results = [] then none
  else
    let fds := results.map (fun r => r.fractal_dimension)
    some { chunk_id := chunk_id, start_y := start_y, end_y := end_y,
           all_regions := results,
           interesting_regions := results.filter (interestingTest (qMean fds) (qVar fds)),
           mean_fractal_dim := qMean fds,
           var_fractal_dim := qVar fds }

/-- `TerrainAnalyzer.analyze` of terrain.py: the chunk summaries in order;
`start_y` ranges over `range(0, total_height, chunk_size)` and the chunk
id counts every chunk, yielded or not. -/
def analyze (lg : ℕ → ℚ) (grid_size chunk_size : ℕ) (src : NpGrid) :
    List ChunkResult :=
  ((List.range ((src.height + chunk_size - 1) / chunk_size)).map
    (fun k => (k, k * chunk_size))).filterMap
    (fun p => chunk_result lg grid_size chunk_size src p.1 p.2)

end TerrainAnalyzer

namespace TerrainSplitter

/-- `max(1, int(multiprocessing.cpu_count() * cpu_fraction))` computed in
`TerrainSplitter.__init__`. -/
def n_cpus (cpu_count : ℕ) (cpu_fraction : ℚ) : ℕ :=
  max 1 (Int.toNat ⌊(cpu_count : ℚ) * cpu_fraction⌋)

/-- The five numeric-library threading environment variables set in
`TerrainSplitter.__init__`. -/
def thread_env_vars : List String :=
  ["OMP_NUM_THREADS", "OPENBLAS_NUM_THREADS", "MKL_NUM_THREADS",
   "VECLIB_MAXIMUM_THREADS", "NUMEXPR_NUM_THREADS"]

/-- The environment assignments performed by `TerrainSplitter.__init__`:
each variable is assigned the string of `n_cpus`; the value is modelled
as the written number. -/
def env_settings (cpu_count : ℕ) (cpu_fraction : ℚ) : List (String × ℕ) :=
  thread_env_vars.map (fun v => (v, n_cpus cpu_count cpu_fraction))

/-- `adjusted_grid_size = min(self.grid_size, height)`. -/
def adjusted_grid_size (grid_size height : ℕ) : ℕ := min grid_size height

/-- `adjusted_overlap = int(adjusted_grid_size * (overlap / grid_size))`:
with floats modelled exactly, the floor of the rational
`adjusted_grid_size * overlap / grid_size`, which for naturals is
natural division. -/
def adjusted_overlap (grid_size overlap height : ℕ) : ℕ :=
  adjusted_grid_size grid_size height * overlap / grid_size

/-- `step_size = adjusted_grid_size - adjusted_overlap`. -/
def step_size (grid_size overlap height : ℕ) : ℕ :=
  adjusted_grid_size grid_size height - adjusted_overlap grid_size overlap height

/-- The background test of split_terrain line 67: every pixel of the
window equals exactly 0 (a NaN pixel does not). -/
def tileIsBackground (t : NpGrid) : Bool :=
  (List.range t.height).all (fun i => (List.range t.width).all (fun j => t.data i j == some 0))

/-- The candidate window corners `(y, x)` of the nested loops of
`split_terrain`. -/
def windowStarts (grid_size overlap : ℕ) (src : NpGrid) : List (ℕ × ℕ) :=
  let ags := adjusted_grid_size grid_size src.height
  let st := step_size grid_size overlap src.height
  (gridStarts src.height ags st).flatMap
    (fun y => (gridStarts src.width ags st).map (fun x => (y, x)))

/-- `TerrainSplitter.split_terrain` of splitter.py: the persisted tiles as
`(x, y, tile)` with their window corner, skipping windows that are empty
or entirely zero. -/
def split_terrain (grid_size overlap : ℕ) (src : NpGrid) : List (ℕ × ℕ × NpGrid) :=
  let ags := adjusted_grid_size grid_size src.height
  (windowStarts grid_size overlap src).filterMap
    (fun p =>
      let t := crop src p.1 p.2 ags ags
      if t.size = 0 ∨ tileIsBackground t then none else some (p.2, p.1, t))

end TerrainSplitter

namespace MetricsGenerator

/-- `MetricsGenerator.compute_metrics` of generator.py: fails exactly when
the fractal estimator fails, otherwise the six metric fields. -/
def compute_metrics (lg : ℕ → ℚ) (g : NpGrid) :
    Except String (List (String × JVal)) :=
  (FractalAnalyzer.compute_fractal_dimension lg g).map (fun r =>
    [("fractal_dimension", jvalOfFd r.1),
     ("r_squared", .num r.2),
     ("mean_elevation", .num (qMean (validCells g))),
     ("std_elevation", .root (qVar (validCells g))),
     ("min_elevation", .num (qMin (validCells g))),
     ("max_elevation", .num (qMax (validCells g)))])

/-- `Path.stem`: the final path component without its last suffix. -/
def stemOf (p : String) : String :=
  let base := (p.splitOn "/").getLastD p
  let parts := base.splitOn "."
  if parts.length ≤ 1 then base else String.intercalate "." parts.dropLast

/-- `Path.with_suffix(".json")`: the same path with the last suffix of the
final component replaced by `.json`. -/
def with_suffix_json (p : String) : String :=
  let comps := p.splitOn "/"
  String.intercalate "/" (comps.dropLast ++ [stemOf p ++ ".json"])

/-- The flattened leaf fields of the result dict of
`MetricsGenerator.process_file`: `grid_id`, the six entries of the
nested `metrics` object, and the three entries of the nested `metadata`
object. -/
def gen_record (p : String) (g : NpGrid) (metrics : List (String × JVal)) :
    List (String × JVal) :=
  ("grid_id", JVal.str (stemOf p)) :: metrics ++
    [("crs", JVal.extVal "crs"), ("transform", JVal.extVal "transform"),
     ("size", JVal.pair g.height g.width)]

/-- `MetricsGenerator.process_file` of generator.py.  Reading the TIFF is
modelled by the oracle `readTiff`; the first component is the returned
value (`none` when any exception was caught), the second the list of
JSON files written, as (path, content) pairs. -/
def process_file (lg : ℕ → ℚ) (readTiff : String → Except String NpGrid)
    (p : String) :
    Option (List (String × JVal)) × List (String × List (String × JVal)) :=
  match readTiff p with
  | .error _ => (none, [])
  | .ok g =>
    match compute_metrics lg g with
    | .error _ => (none, [])
    | .ok m =>
      let record := gen_record p g m
      (some record, [(with_suffix_json p, record)])

/-- `MetricsGenerator.process_directory` of generator.py: the ordered
result list (one entry per input file, `none` for failures) and all
JSON files written. -/
def process_directory (lg : ℕ → ℚ) (readTiff : String → Except String NpGrid)
    (files : List String) :
    List (Option (List (String × JVal))) × List (String × List (String × JVal)) :=
  (files.map (fun p => (process_file lg readTiff p).1),
   files.flatMap (fun p => (process_file lg readTiff p).2))

end MetricsGenerator

/-- The identity logarithm stand-in used by concrete witnesses: any
strictly monotone rational-valued map may act for the float log. -/
def lgId : ℕ → ℚ := fun n => (n : ℚ)

/-- A 16 by 16 grid of alternating 0 and 1 columns: a concrete input on
which the estimator succeeds with box sizes 4 and 8. -/
def stripe16 : NpGrid :=
  ⟨16, 16, fun _ j => some ((j % 2 : ℕ) : ℚ)⟩

/-- A 4 by 4 grid with a single 1 in the corner, otherwise 0. -/
def spike4 : NpGrid :=
  ⟨4, 4, fun i j => if i = 0 ∧ j = 0 then some 1 else some 0⟩

/-- A constant grid of the given dimensions. -/
def constGrid (h w : ℕ) (c : ℚ) : NpGrid := ⟨h, w, fun _ _ => some c⟩

/-- An all-zero raster of the given dimensions. -/
def zeroRaster (h w : ℕ) : NpGrid := constGrid h w 0

/-! ### Helper lemmas about the balanced folds -/

theorem halveStep_length (f : ℚ → ℚ → ℚ) :
    ∀ l : List ℚ, (halveStep f l).length = (l.length + 1) / 2
  | [] => by simp [halveStep]
  | [_] => by simp [halveStep]
  | a :: b :: t => by
    simp only [halveStep, List.length_cons, halveStep_length f t]
    omega

theorem halveStep_sum :
    ∀ l : List ℚ, (halveStep (· + ·) l).sum = l.sum
  | [] => by simp [halveStep]
  | [_] => by simp [halveStep]
  | a :: b :: t => by
    simp only [halveStep, List.sum_cons, halveStep_sum t]
    ring

theorem foldBalanced_sum :
    ∀ (fuel : ℕ) (l : List ℚ), l.length ≤ 2 ^ fuel →
      foldBalanced (· + ·) 0 fuel l = l.sum
  | _, [], _ => by simp [foldBalanced]
  | _, [a], _ => by simp [foldBalanced]
  | 0, a :: b :: t, h => by simp at h
  | fuel + 1, a :: b :: t, h => by
    have hlen : (halveStep (· + ·) (a :: b :: t)).length ≤ 2 ^ fuel := by
      rw [halveStep_length]
      have h2 : (2 : ℕ) ^ (fuel + 1) = 2 ^ fuel * 2 := pow_succ 2 fuel
      rw [h2] at h
      simp only [List.length_cons] at h ⊢
      omega
    rw [show foldBalanced (· + ·) 0 (fuel + 1) (a :: b :: t) =
        foldBalanced (· + ·) 0 fuel (halveStep (· + ·) (a :: b :: t)) from rfl,
      foldBalanced_sum fuel _ hlen, halveStep_sum]

theorem qSum_eq_sum (l : List ℚ) : qSum l = l.sum :=
  foldBalanced_sum l.length l (Nat.lt_two_pow l.length).le

theorem halveStep_const (f : ℚ → ℚ → ℚ) (c : ℚ) (hf : f c c = c) :
    ∀ l : List ℚ, (∀ x ∈ l, x = c) → ∀ x ∈ halveStep f l, x = c
  | [], _ => by simp [halveStep]
  | [a], h => by simpa [halveStep] using h
  | a :: b :: t, h => by
    intro x hx
    have ha : a = c := h a (by simp)
    have hb : b = c := h b (by simp)
    have ht : ∀ y ∈ t, y = c := fun y hy => h y (by simp [hy])
    simp only [halveStep, List.mem_cons] at hx
    rcases hx with rfl | hx
    · rw [ha, hb, hf]
    · exact halveStep_const f c hf t ht x hx

theorem foldBalanced_const (f : ℚ → ℚ → ℚ) (d c : ℚ) (hf : f c c = c) :
    ∀ (fuel : ℕ) (l : List ℚ), l ≠ [] → (∀ x ∈ l, x = c) →
      foldBalanced f d fuel l = c
  | _, [], h, _ => absurd rfl h
  | _, [a], _, h => by simpa [foldBalanced] using h a (by simp)
  | 0, a :: b :: t, _, h => by simpa [foldBalanced] using h a (by simp)
  | fuel + 1, a :: b :: t, _, h => by
    have hne : halveStep f (a :: b :: t) ≠ [] := by
      have := halveStep_length f (a :: b :: t)
      intro hemp
      rw [hemp] at this
      simp at this
      omega
    exact foldBalanced_const f d c hf fuel (halveStep f (a :: b :: t)) hne
      (halveStep_const f c hf _ h)

theorem ratMin_self (c : ℚ) : ratMin c c = c := by
  simp [ratMin]

theorem ratMax_self (c : ℚ) : ratMax c c = c := by
  simp [ratMax]

theorem qMin_const (l : List ℚ) (c : ℚ) (hne : l ≠ []) (h : ∀ x ∈ l, x = c) :
    qMin l = c :=
  foldBalanced_const ratMin 0 c (ratMin_self c) l.length l hne h

theorem qMax_const (l : List ℚ) (c : ℚ) (hne : l ≠ []) (h : ∀ x ∈ l, x = c) :
    qMax l = c :=
  foldBalanced_const ratMax 0 c (ratMax_self c) l.length l hne h

theorem qSum_eq_zero (l : List ℚ) (h : ∀ x ∈ l, x = 0) : qSum l = 0 := by
  rw [qSum_eq_sum]
  exact List.sum_eq_zero h

/-! ### The fuel-driven base-2 logarithm equals Nat.log 2 -/

theorem FractalAnalyzer.log2fuel_eq_log :
    ∀ (fuel n : ℕ), n ≤ fuel → FractalAnalyzer.log2fuel fuel n = Nat.log 2 n
  | 0, n, h => by
    interval_cases n
    simp [FractalAnalyzer.log2fuel]
  | fuel + 1, n, h => by
    rw [show FractalAnalyzer.log2fuel (fuel + 1) n =
        (if n < 2 then 0 else FractalAnalyzer.log2fuel fuel (n / 2) + 1) from rfl]
    by_cases h2 : n < 2
    · rw [if_pos h2]
      interval_cases n <;> simp
    · rw [if_neg h2]
      push_neg at h2
      have hdiv : n / 2 ≤ fuel := by omega
      rw [FractalAnalyzer.log2fuel_eq_log fuel (n / 2) hdiv, Nat.log_div_base]
      have hpos : 0 < Nat.log 2 n := Nat.log_pos (by norm_num) h2
      omega

theorem FractalAnalyzer.log2floor_eq_log (n : ℕ) :
    FractalAnalyzer.log2floor n = Nat.log 2 n :=
  FractalAnalyzer.log2fuel_eq_log n n le_rfl

/-! ### List sums as Finset range sums, and the r squared bounds -/

theorem list_map_sum_getD {α : Type} (l : List α) (F : α → ℚ) (d : α) :
    (l.map F).sum = ∑ i ∈ Finset.range l.length, F (l.getD i d) := by
  induction l with
  | nil => simp
  | cons a t ih =>
    simp only [List.map_cons, List.sum_cons, List.length_cons, Finset.sum_range_succ',
      List.getD_cons_succ, List.getD_cons_zero, ih]
    ring

theorem ssq_nonneg_list (l : List ℚ) (h : ∀ x ∈ l, 0 ≤ x) : 0 ≤ l.sum :=
  List.sum_nonneg h

namespace FractalAnalyzer

theorem ssxm_nonneg (pts : List (ℚ × ℚ)) : 0 ≤ ssxm pts := by
  apply ssq_nonneg_list
  intro x hx
  simp only [ssxm, List.mem_map] at hx
  obtain ⟨p, _, rfl⟩ := hx
  positivity

theorem ssym_nonneg (pts : List (ℚ × ℚ)) : 0 ≤ ssym pts := by
  apply ssq_nonneg_list
  intro x hx
  simp only [ssym, List.mem_map] at hx
  obtain ⟨p, _, rfl⟩ := hx
  positivity

theorem ssxym_sq_le (pts : List (ℚ × ℚ)) :
    (ssxym pts) ^ 2 ≤ ssxm pts * ssym pts := by
  have hx : ssxm pts = ∑ i ∈ Finset.range pts.length,
      ((pts.getD i (0, 0)).1 - ptsMeanX pts) ^ 2 :=
    list_map_sum_getD pts _ (0, 0)
  have hy : ssym pts = ∑ i ∈ Finset.range pts.length,
      ((pts.getD i (0, 0)).2 - ptsMeanY pts) ^ 2 :=
    list_map_sum_getD pts _ (0, 0)
  have hxy : ssxym pts = ∑ i ∈ Finset.range pts.length,
      ((pts.getD i (0, 0)).1 - ptsMeanX pts) * ((pts.getD i (0, 0)).2 - ptsMeanY pts) :=
    list_map_sum_getD pts _ (0, 0)
  rw [hx, hy, hxy]
  exact Finset.sum_mul_sq_le_sq_mul_sq _ _ _

theorem olsRsq_nonneg (pts : List (ℚ × ℚ)) : 0 ≤ olsRsq pts := by
  unfold olsRsq
  split
  · exact le_rfl
  · exact div_nonneg (sq_nonneg _) (mul_nonneg (ssxm_nonneg pts) (ssym_nonneg pts))

theorem olsRsq_le_one (pts : List (ℚ × ℚ)) : olsRsq pts ≤ 1 := by
  unfold olsRsq
  split
  · exact zero_le_one
  · rename_i hdeg
    push_neg at hdeg
    have hx : 0 < ssxm pts := lt_of_le_of_ne (ssxm_nonneg pts) (Ne.symm hdeg.1)
    have hy : 0 < ssym pts := lt_of_le_of_ne (ssym_nonneg pts) (Ne.symm hdeg.2)
    rw [div_le_one (mul_pos hx hy)]
    exact ssxym_sq_le pts

end FractalAnalyzer

/-! ### Membership in the window-start lists -/

theorem mem_gridStarts (e s st y : ℕ) (hst : 1 ≤ st) :
    y ∈ gridStarts e s st ↔ s ≤ e ∧ st ∣ y ∧ y + s ≤ e := by
  unfold gridStarts
  by_cases hse : s ≤ e
  · rw [if_pos ⟨hse, hst⟩]
    rw [List.mem_range']
    constructor
    · rintro ⟨i, hi, rfl⟩
      refine ⟨hse, ⟨i, by ring⟩, ?_⟩
      have h1 : i ≤ (e - s) / st := by omega
      have h2 : i * st ≤ e - s := (Nat.le_div_iff_mul_le hst).1 h1
      have h3 : st * i = i * st := by ring
      omega
    · rintro ⟨_, ⟨k, rfl⟩, hbound⟩
      have h3 : st * k = k * st := by ring
      have hc : k * st ≤ e - s := by omega
      have h4 := (Nat.le_div_iff_mul_le hst).2 hc
      exact ⟨k, by omega, by ring⟩
  · rw [if_neg (by tauto)]
    simp only [List.not_mem_nil, false_iff]
    rintro ⟨h, _⟩
    exact hse h

/-! ### Cell membership helpers -/

theorem mem_cellsList (g : NpGrid) (o : Option ℚ) :
    o ∈ cellsList g ↔ ∃ i < g.height, ∃ j < g.width, o = g.data i j := by
  unfold cellsList
  simp only [List.mem_flatMap, List.mem_map, List.mem_range]
  constructor
  · rintro ⟨i, hi, j, hj, rfl⟩
    exact ⟨i, hi, j, hj, rfl⟩
  · rintro ⟨i, hi, j, hj, rfl⟩
    exact ⟨i, hi, j, hj, rfl⟩

theorem mem_validCells (g : NpGrid) (q : ℚ) :
    q ∈ validCells g ↔ ∃ i < g.height, ∃ j < g.width, g.data i j = some q := by
  unfold validCells
  simp only [List.mem_filterMap, id_eq]
  constructor
  · rintro ⟨o, ho, rfl⟩
    obtain ⟨i, hi, j, hj, heq⟩ := (mem_cellsList g _).1 ho
    exact ⟨i, hi, j, hj, heq.symm⟩
  · rintro ⟨i, hi, j, hj, hq⟩
    exact ⟨g.data i j, (mem_cellsList g _).2 ⟨i, hi, j, hj, rfl⟩, hq⟩

theorem FractalAnalyzer.mem_boxIndices (g : NpGrid) (b : ℕ) (p : ℕ × ℕ) :
    p ∈ FractalAnalyzer.boxIndices g b ↔ p.1 < g.height / b ∧ p.2 < g.width / b := by
  unfold FractalAnalyzer.boxIndices
  simp only [List.mem_flatMap, List.mem_map, List.mem_range]
  constructor
  · rintro ⟨i, hi, j, hj, rfl⟩
    exact ⟨hi, hj⟩
  · rintro ⟨h1, h2⟩
    exact ⟨p.1, h1, p.2, h2, rfl⟩

theorem mem_normAll (g : NpGrid) (q : ℚ) :
    q ∈ FractalAnalyzer.normAll g ↔
      ∃ i < g.height, ∃ j < g.width, q = FractalAnalyzer.normVal g i j := by
  unfold FractalAnalyzer.normAll
  simp only [List.mem_flatMap, List.mem_map, List.mem_range]
  constructor
  · rintro ⟨i, hi, j, hj, rfl⟩
    exact ⟨i, hi, j, hj, rfl⟩
  · rintro ⟨i, hi, j, hj, rfl⟩
    exact ⟨i, hi, j, hj, rfl⟩

/-! ### Splitter step-size helper -/

theorem TerrainSplitter.step_size_pos (grid_size overlap height : ℕ)
    (hgs : 1 ≤ grid_size) (hov : overlap < grid_size) (hh : 1 ≤ height) :
    1 ≤ TerrainSplitter.step_size grid_size overlap height := by
  unfold TerrainSplitter.step_size TerrainSplitter.adjusted_overlap
    TerrainSplitter.adjusted_grid_size
  have hapos : 1 ≤ min grid_size height := le_min hgs hh
  have hlt : min grid_size height * overlap / grid_size < min grid_size height := by
    rw [Nat.div_lt_iff_lt_mul (by omega)]
    exact mul_lt_mul_of_pos_left hov (by omega)
  omega

/-- C10: with `1 ≤ grid_size`, `overlap < grid_size` and a nonempty raster
the computed step size is at least 1 and the tiling loops are
well-defined, while `overlap = grid_size` forces step size 0 (an
ill-formed iteration), so the precondition `overlap < grid_size` is
necessary. -/
theorem C10_step_size_precondition (grid_size overlap height : ℕ)
    (hgs : 1 ≤ grid_size) (hh : 1 ≤ height) :
    (overlap < grid_size → 1 ≤ TerrainSplitter.step_size grid_size overlap height) ∧
    (overlap = grid_size → TerrainSplitter.step_size grid_size overlap height = 0) := by
  constructor
  · intro hov
    exact TerrainSplitter.step_size_pos grid_size overlap height hgs hov hh
  · intro hov
    subst hov
    unfold TerrainSplitter.step_size TerrainSplitter.adjusted_overlap
      TerrainSplitter.adjusted_grid_size
    rw [Nat.mul_div_cancel _ (by omega)]
    omega

theorem C10_step_size_precondition_witness :
    1 ≤ 512 ∧ 1 ≤ 1024 ∧
    ((64 < 512 → 1 ≤ TerrainSplitter.step_size 512 64 1024) ∧
     (64 = 512 → TerrainSplitter.step_size 512 64 1024 = 0)) :=
  ⟨by norm_num, by norm_num,
    C10_step_size_precondition 512 64 1024 (by norm_num) (by norm_num)⟩

/-- C8 (counterexample): with 8 CPUs and the default fraction 0.5 the
splitter computes 4 workers and assigns the value 4, not 1, to every
threading knob; the claimed assignment of 1 thread is absent. -/
theorem C8_counterexample :
    TerrainSplitter.n_cpus 8 (1 / 2) = 4 ∧
    TerrainSplitter.env_settings 8 (1 / 2) =
      [("OMP_NUM_THREADS", 4), ("OPENBLAS_NUM_THREADS", 4), ("MKL_NUM_THREADS", 4),
       ("VECLIB_MAXIMUM_THREADS", 4), ("NUMEXPR_NUM_THREADS", 4)] ∧
    ("OMP_NUM_THREADS", 1) ∉ TerrainSplitter.env_settings 8 (1 / 2) := by
  have hn : TerrainSplitter.n_cpus 8 (1 / 2) = 4 := by
    unfold TerrainSplitter.n_cpus
    norm_num
    rfl
  refine ⟨hn, ?_, ?_⟩
  · unfold TerrainSplitter.env_settings TerrainSplitter.thread_env_vars
    rw [hn]
    decide
  · unfold TerrainSplitter.env_settings TerrainSplitter.thread_env_vars
    rw [hn]
    decide

/-- C8 (amended): the component that computes the effective worker count
`max(1, floor(cpu_count * cpu_fraction))` sets each of the five
numeric-library threading knobs to that worker count itself (so the
value is 1 exactly when the worker count is 1), not unconditionally to
1 thread per worker. -/
theorem C8_thread_env_settings (cpu_count : ℕ) (cpu_fraction : ℚ) :
    (∀ v ∈ TerrainSplitter.thread_env_vars,
      (v, TerrainSplitter.n_cpus cpu_count cpu_fraction) ∈
        TerrainSplitter.env_settings cpu_count cpu_fraction) ∧
    1 ≤ TerrainSplitter.n_cpus cpu_count cpu_fraction ∧
    ((∀ p ∈ TerrainSplitter.env_settings cpu_count cpu_fraction, p.2 = 1) ↔
      TerrainSplitter.n_cpus cpu_count cpu_fraction = 1) := by
  refine ⟨?_, le_max_left 1 _, ?_, ?_⟩
  · intro v hv
    unfold TerrainSplitter.env_settings
    exact List.mem_map.2 ⟨v, hv, rfl⟩
  · intro hall
    exact hall ("OMP_NUM_THREADS", TerrainSplitter.n_cpus cpu_count cpu_fraction)
      (List.mem_map.2 ⟨"OMP_NUM_THREADS", by simp [TerrainSplitter.thread_env_vars], rfl⟩)
  · intro h1 p hp
    unfold TerrainSplitter.env_settings at hp
    obtain ⟨v, _, rfl⟩ := List.mem_map.1 hp
    exact h1

unseal Rat.add Rat.mul Rat.inv Rat.sub in
/-- C6 (counterexample): on a 4 by 4 grid (so `min(shape) = 4`) the call
with `box_size = 4`, which the claim says must be treated as unusable,
in fact partitions the grid into one box and returns count 1. -/
theorem C6_counterexample :
    FractalAnalyzer.min_shape spike4 ≤ 4 ∧ FractalAnalyzer.box_count spike4 4 ≠ 0 := by
  constructor
  · decide
  · decide

/-- C6 (amended): for every grid and every `box_size` strictly greater
than `min(shape)` (rather than greater or equal), `box_count` treats the
size as unusable: it returns 0 and the box lattice is empty, so the grid
is never partitioned into zero boxes. -/
theorem C6_box_count_oversized (g : NpGrid) (b : ℕ)
    (h : FractalAnalyzer.min_shape g < b) :
    FractalAnalyzer.box_count g b = 0 ∧ FractalAnalyzer.boxIndices g b = [] := by
  have hdiv : g.height / b = 0 ∨ g.width / b = 0 := by
    rcases min_lt_iff.1 h with hh | hw
    · exact Or.inl (Nat.div_eq_of_lt hh)
    · exact Or.inr (Nat.div_eq_of_lt hw)
  constructor
  · unfold FractalAnalyzer.box_count
    by_cases hv : validCells g = []
    · rw [if_pos hv]
    · rw [if_neg hv, if_pos (by tauto)]
  · unfold FractalAnalyzer.boxIndices
    rcases hdiv with h0 | h0 <;> simp [h0]

unseal Rat.add Rat.mul Rat.inv Rat.sub in
theorem C6_box_count_oversized_witness :
    FractalAnalyzer.min_shape spike4 < 5 ∧
    (FractalAnalyzer.box_count spike4 5 = 0 ∧ FractalAnalyzer.boxIndices spike4 5 = []) :=
  ⟨by decide, C6_box_count_oversized spike4 5 (by decide)⟩

/-! ### Constant grids -/

theorem cell_bound {n q b d : ℕ} (hq : q < n / b) (hd : d < b) : q * b + d < n := by
  have h1 : (q + 1) * b ≤ (n / b) * b := Nat.mul_le_mul_right b (by omega)
  have h2 : n / b * b ≤ n := Nat.div_mul_le_self n b
  have h3 : (q + 1) * b = q * b + b := by ring
  omega

theorem FractalAnalyzer.box_count_const_zero (g : NpGrid) (c : ℚ)
    (hconst : ∀ i j, i < g.height → j < g.width → g.data i j = some c) (b : ℕ) :
    FractalAnalyzer.box_count g b = 0 := by
  unfold FractalAnalyzer.box_count
  by_cases hv : validCells g = []
  · rw [if_pos hv]
  · rw [if_neg hv]
    by_cases hz : g.height / b = 0 ∨ g.width / b = 0 ∨ b = 0
    · rw [if_pos hz]
    · rw [if_neg hz]
      push_neg at hz
      obtain ⟨hz1, hz2, hz3⟩ := hz
      have hb : 0 < b := Nat.pos_of_ne_zero hz3
      have hall : ∀ x ∈ validCells g, x = c := by
        intro x hx
        obtain ⟨i, hi, j, hj, hd⟩ := (mem_validCells g x).1 hx
        have := hconst i j hi hj
        rw [this] at hd
        injection hd with h
        exact h.symm
      have hmin : qMin (validCells g) = c := qMin_const _ c hv hall
      have hmax : qMax (validCells g) = c := qMax_const _ c hv hall
      have hnv : ∀ i j, i < g.height → j < g.width → FractalAnalyzer.normVal g i j = 0 := by
        intro i j hi hj
        unfold FractalAnalyzer.normVal
        rw [hconst i j hi hj]
        simp [hmin, hmax]
      have hz0 : ∀ x ∈ FractalAnalyzer.normAll g, x = 0 := by
        intro x hx
        obtain ⟨i, hi, j, hj, rfl⟩ := (mem_normAll g x).1 hx
        exact hnv i j hi hj
      have hvar : qVar (FractalAnalyzer.normAll g) = 0 := by
        unfold qVar
        have hm : qMean (FractalAnalyzer.normAll g) = 0 := by
          unfold qMean
          rw [qSum_eq_zero _ hz0]
          simp
        have hdev : ∀ y ∈ (FractalAnalyzer.normAll g).map
            (fun x => (x - qMean (FractalAnalyzer.normAll g)) ^ 2), y = 0 := by
          intro y hy
          obtain ⟨x, hxl, rfl⟩ := List.mem_map.1 hy
          rw [hm, hz0 x hxl]
          simp
        rw [qSum_eq_zero _ hdev]
        simp
      apply List.countP_eq_zero.2
      intro p hp
      obtain ⟨h1, h2⟩ := (FractalAnalyzer.mem_boxIndices g b p).1 hp
      have hptp : FractalAnalyzer.boxPtp g b p.1 p.2 = 0 := by
        simp only [FractalAnalyzer.boxPtp]
        have hcne : FractalAnalyzer.normVal g (p.1 * b + 0) (p.2 * b + 0) ∈
            (List.range b).flatMap (fun di => (List.range b).map
              (fun dj => FractalAnalyzer.normVal g (p.1 * b + di) (p.2 * b + dj))) := by
          apply List.mem_flatMap.2
          exact ⟨0, List.mem_range.2 hb, List.mem_map.2 ⟨0, List.mem_range.2 hb, rfl⟩⟩
        have hcz : ∀ x ∈ (List.range b).flatMap (fun di => (List.range b).map
            (fun dj => FractalAnalyzer.normVal g (p.1 * b + di) (p.2 * b + dj))), x = 0 := by
          intro x hx
          obtain ⟨di, hdi, hx2⟩ := List.mem_flatMap.1 hx
          obtain ⟨dj, hdj, rfl⟩ := List.mem_map.1 hx2
          exact hnv _ _ (cell_bound h1 (List.mem_range.1 hdi))
            (cell_bound h2 (List.mem_range.1 hdj))
        rw [qMax_const _ 0 (List.ne_nil_of_mem hcne) hcz,
          qMin_const _ 0 (List.ne_nil_of_mem hcne) hcz]
        simp
      rw [hvar, hptp]
      simp

/-- C5: a nonempty perfectly flat grid (every cell the same elevation)
yields box count 0 at every box size, and the estimator consequently
fails (no box size has a nonzero count, so fewer than 2 regression
points exist) rather than returning a fractal dimension. -/
theorem C5_flat_grid_estimator_fails (lg : ℕ → ℚ) (g : NpGrid) (c : ℚ)
    (hh : 1 ≤ g.height) (hw : 1 ≤ g.width)
    (hconst : ∀ i j, i < g.height → j < g.width → g.data i j = some c) :
    (∀ b, 1 ≤ b → FractalAnalyzer.box_count g b = 0) ∧
    FractalAnalyzer.isErr (FractalAnalyzer.compute_fractal_dimension lg g) = true := by
  have hbc := FractalAnalyzer.box_count_const_zero g c hconst
  refine ⟨fun b _ => hbc b, ?_⟩
  have hvp : FractalAnalyzer.valid_pairs g = [] := by
    unfold FractalAnalyzer.valid_pairs
    apply List.filterMap_eq_nil_iff.2
    intro b _
    simp [hbc b]
  unfold FractalAnalyzer.compute_fractal_dimension
  by_cases hs : g.size = 0
  · rw [if_pos hs]
    rfl
  · rw [if_neg hs]
    by_cases hbs : FractalAnalyzer.box_sizes g = []
    · rw [if_pos hbs]
      rfl
    · rw [if_neg hbs, if_pos (by rw [hvp]; norm_num)]
      rfl

theorem C5_flat_grid_estimator_fails_witness :
    1 ≤ (constGrid 16 16 5).height ∧ 1 ≤ (constGrid 16 16 5).width ∧
    ((∀ b, 1 ≤ b → FractalAnalyzer.box_count (constGrid 16 16 5) b = 0) ∧
      FractalAnalyzer.isErr
        (FractalAnalyzer.compute_fractal_dimension lgId (constGrid 16 16 5)) = true) :=
  ⟨by decide, by decide,
    C5_flat_grid_estimator_fails lgId (constGrid 16 16 5) 5 (by decide) (by decide)
      (fun _ _ _ _ => rfl)⟩

/-- C7: a candidate window of the splitter is persisted if and only if it
is a candidate corner and is not skipped, where a window is skipped
exactly when it is empty (zero size) or every pixel equals exactly 0;
consequently an all-zero raster (such as 1024 by 1024 of zeros) yields
zero persisted tiles. -/
theorem C7_background_skip (grid_size overlap : ℕ) (src : NpGrid)
    (hgs : 1 ≤ grid_size) (hov : overlap < grid_size) (hh : 1 ≤ src.height) :
    (∀ x y t, (x, y, t) ∈ TerrainSplitter.split_terrain grid_size overlap src ↔
      ((y, x) ∈ TerrainSplitter.windowStarts grid_size overlap src ∧
        t = crop src y x (TerrainSplitter.adjusted_grid_size grid_size src.height)
          (TerrainSplitter.adjusted_grid_size grid_size src.height) ∧
        ¬(t.size = 0 ∨ TerrainSplitter.tileIsBackground t = true))) ∧
    ((∀ i j, i < src.height → j < src.width → src.data i j = some 0) →
      TerrainSplitter.split_terrain grid_size overlap src = []) := by
  constructor
  · intro x y t
    unfold TerrainSplitter.split_terrain
    rw [List.mem_filterMap]
    constructor
    · rintro ⟨⟨y', x'⟩, hmem, hf⟩
      dsimp only at hf
      by_cases hcond : (crop src y' x' (TerrainSplitter.adjusted_grid_size grid_size src.height)
          (TerrainSplitter.adjusted_grid_size grid_size src.height)).size = 0 ∨
          TerrainSplitter.tileIsBackground (crop src y' x'
            (TerrainSplitter.adjusted_grid_size grid_size src.height)
            (TerrainSplitter.adjusted_grid_size grid_size src.height)) = true
      · rw [if_pos hcond] at hf
        exact absurd hf (by simp)
      · rw [if_neg hcond] at hf
        simp only [Option.some.injEq, Prod.mk.injEq] at hf
        obtain ⟨rfl, rfl, rfl⟩ := hf
        exact ⟨hmem, rfl, hcond⟩
    · rintro ⟨hmem, rfl, hskip⟩
      exact ⟨(y, x), hmem, by rw [if_neg hskip]⟩
  · intro hzero
    unfold TerrainSplitter.split_terrain
    apply List.filterMap_eq_nil_iff.2
    intro p _
    dsimp only
    rw [if_pos]
    right
    unfold TerrainSplitter.tileIsBackground
    simp only [List.all_eq_true, List.mem_range]
    intro i hi j hj
    unfold crop at hi hj ⊢
    dsimp only at hi hj ⊢
    rw [hzero (p.1 + i) (p.2 + j) (by omega) (by omega)]
    simp

theorem C7_background_skip_witness :
    1 ≤ 512 ∧ 64 < 512 ∧ 1 ≤ (zeroRaster 1024 1024).height ∧
    TerrainSplitter.split_terrain 512 64 (zeroRaster 1024 1024) = [] :=
  ⟨by norm_num, by norm_num, by decide,
    (C7_background_skip 512 64 (zeroRaster 1024 1024) (by norm_num) (by norm_num)
      (by decide)).2 (fun _ _ _ _ => rfl)⟩

/-! ### C1: the box-counting estimator -/

/-- C1: the estimator uses exactly the box sizes `2^i` for
`2 <= i < floor(log2(min(height, width)))` (each strictly smaller than
the smallest dimension), retains exactly the sizes with a nonzero box
count, fails exactly when the image is empty or fewer than 2 sizes have
a nonzero count, and on success returns the negated ordinary
least-squares slope of log count against log size over the retained
sizes together with the squared correlation coefficient. -/
theorem C1_compute_fractal_dimension_spec (lg : ℕ → ℚ) (g : NpGrid) :
    (∀ b, b ∈ FractalAnalyzer.box_sizes g ↔
      ∃ i, 2 ≤ i ∧ i < Nat.log 2 (FractalAnalyzer.min_shape g) ∧ b = 2 ^ i) ∧
    (∀ b ∈ FractalAnalyzer.box_sizes g, b < FractalAnalyzer.min_shape g) ∧
    (∀ b c, (b, c) ∈ FractalAnalyzer.valid_pairs g ↔
      (b ∈ FractalAnalyzer.box_sizes g ∧ c = FractalAnalyzer.box_count g b ∧ 0 < c)) ∧
    (FractalAnalyzer.isErr (FractalAnalyzer.compute_fractal_dimension lg g) = true ↔
      (g.size = 0 ∨ (FractalAnalyzer.valid_pairs g).length < 2)) ∧
    (∀ r, FractalAnalyzer.compute_fractal_dimension lg g = .ok r →
      r = (FractalAnalyzer.negOlsSlope (FractalAnalyzer.logPoints lg g),
           FractalAnalyzer.olsRsq (FractalAnalyzer.logPoints lg g))) := by
  have hmp : FractalAnalyzer.max_power g = Nat.log 2 (FractalAnalyzer.min_shape g) :=
    FractalAnalyzer.log2floor_eq_log _
  have hsizes : ∀ b, b ∈ FractalAnalyzer.box_sizes g ↔
      ∃ i, 2 ≤ i ∧ i < Nat.log 2 (FractalAnalyzer.min_shape g) ∧ b = 2 ^ i := by
    intro b
    unfold FractalAnalyzer.box_sizes
    rw [List.mem_map]
    constructor
    · rintro ⟨i, hi, rfl⟩
      rw [List.mem_range'_1] at hi
      exact ⟨i, hi.1, by omega, rfl⟩
    · rintro ⟨i, h2, hlt, rfl⟩
      refine ⟨i, ?_, rfl⟩
      rw [List.mem_range'_1]
      omega
  refine ⟨hsizes, ?_, ?_, ?_, ?_⟩
  · intro b hb
    obtain ⟨i, h2, hlt, rfl⟩ := (hsizes b).1 hb
    have hms : FractalAnalyzer.min_shape g ≠ 0 := by
      intro h0
      rw [h0, Nat.log_zero_right] at hlt
      omega
    calc 2 ^ i < 2 ^ Nat.log 2 (FractalAnalyzer.min_shape g) :=
          Nat.pow_lt_pow_right (by norm_num) hlt
      _ ≤ FractalAnalyzer.min_shape g := Nat.pow_log_le_self 2 hms
  · intro b c
    unfold FractalAnalyzer.valid_pairs
    rw [List.mem_filterMap]
    constructor
    · rintro ⟨a, ha, hf⟩
      dsimp only at hf
      by_cases hc : 0 < FractalAnalyzer.box_count g a
      · rw [if_pos hc] at hf
        injection hf with hf
        injection hf with hf1 hf2
        subst hf1
        subst hf2
        exact ⟨ha, rfl, hc⟩
      · rw [if_neg hc] at hf
        exact absurd hf (by simp)
    · rintro ⟨hb, rfl, hc⟩
      exact ⟨b, hb, by dsimp only; rw [if_pos hc]⟩
  · unfold FractalAnalyzer.compute_fractal_dimension
    by_cases hs : g.size = 0
    · rw [if_pos hs]
      simp [FractalAnalyzer.isErr, hs]
    · rw [if_neg hs]
      by_cases hbs : FractalAnalyzer.box_sizes g = []
      · rw [if_pos hbs]
        have hvp : FractalAnalyzer.valid_pairs g = [] := by
          unfold FractalAnalyzer.valid_pairs
          rw [hbs]
          rfl
        simp [FractalAnalyzer.isErr, hs, hvp]
      · rw [if_neg hbs]
        by_cases hlen : (FractalAnalyzer.valid_pairs g).length < 2
        · rw [if_pos hlen]
          simp [FractalAnalyzer.isErr, hlen]
        · rw [if_neg hlen]
          simp [FractalAnalyzer.isErr, hs, hlen]
  · intro r hr
    unfold FractalAnalyzer.compute_fractal_dimension at hr
    split_ifs at hr
    exact (Except.ok.inj hr).symm

theorem C1_compute_fractal_dimension_spec_witness :
    (∀ b, b ∈ FractalAnalyzer.box_sizes stripe16 ↔
      ∃ i, 2 ≤ i ∧ i < Nat.log 2 (FractalAnalyzer.min_shape stripe16) ∧ b = 2 ^ i) ∧
    (∀ b ∈ FractalAnalyzer.box_sizes stripe16, b < FractalAnalyzer.min_shape stripe16) ∧
    (∀ b c, (b, c) ∈ FractalAnalyzer.valid_pairs stripe16 ↔
      (b ∈ FractalAnalyzer.box_sizes stripe16 ∧
        c = FractalAnalyzer.box_count stripe16 b ∧ 0 < c)) ∧
    (FractalAnalyzer.isErr (FractalAnalyzer.compute_fractal_dimension lgId stripe16) = true ↔
      (stripe16.size = 0 ∨ (FractalAnalyzer.valid_pairs stripe16).length < 2)) ∧
    (∀ r, FractalAnalyzer.compute_fractal_dimension lgId stripe16 = .ok r →
      r = (FractalAnalyzer.negOlsSlope (FractalAnalyzer.logPoints lgId stripe16),
           FractalAnalyzer.olsRsq (FractalAnalyzer.logPoints lgId stripe16))) :=
  C1_compute_fractal_dimension_spec lgId stripe16

/-! ### C3: splitter geometry -/

theorem TerrainSplitter.mem_windowStarts (grid_size overlap : ℕ) (src : NpGrid)
    (p : ℕ × ℕ) :
    p ∈ TerrainSplitter.windowStarts grid_size overlap src ↔
      (p.1 ∈ gridStarts src.height (TerrainSplitter.adjusted_grid_size grid_size src.height)
        (TerrainSplitter.step_size grid_size overlap src.height) ∧
       p.2 ∈ gridStarts src.width (TerrainSplitter.adjusted_grid_size grid_size src.height)
        (TerrainSplitter.step_size grid_size overlap src.height)) := by
  unfold TerrainSplitter.windowStarts
  simp only [List.mem_flatMap, List.mem_map]
  constructor
  · rintro ⟨y, hy, x, hx, rfl⟩
    exact ⟨hy, hx⟩
  · rintro ⟨h1, h2⟩
    exact ⟨p.1, h1, p.2, h2, rfl⟩

/-- C3: the splitter uses the effective grid size `min(grid_size, height)`,
the adjusted overlap `floor(adjusted_grid_size * overlap / grid_size)`
(ratio against the original grid_size), and
`step = adjusted_grid_size - adjusted_overlap`; the candidate corners
are exactly the multiples of the step size that keep the square window
of the effective size inside the raster, and every persisted tile is
square of that size and lies fully within the raster bounds. -/
theorem C3_splitter_geometry (grid_size overlap : ℕ) (src : NpGrid)
    (hgs : 1 ≤ grid_size) (hov : overlap < grid_size) (hh : 1 ≤ src.height) :
    (TerrainSplitter.adjusted_grid_size grid_size src.height = min grid_size src.height) ∧
    (TerrainSplitter.adjusted_overlap grid_size overlap src.height =
      Nat.floor ((TerrainSplitter.adjusted_grid_size grid_size src.height * overlap : ℕ) /
        (grid_size : ℚ))) ∧
    (TerrainSplitter.step_size grid_size overlap src.height =
      TerrainSplitter.adjusted_grid_size grid_size src.height -
        TerrainSplitter.adjusted_overlap grid_size overlap src.height) ∧
    (∀ y x, (y, x) ∈ TerrainSplitter.windowStarts grid_size overlap src ↔
      (TerrainSplitter.step_size grid_size overlap src.height ∣ y ∧
       y + TerrainSplitter.adjusted_grid_size grid_size src.height ≤ src.height ∧
       TerrainSplitter.step_size grid_size overlap src.height ∣ x ∧
       x + TerrainSplitter.adjusted_grid_size grid_size src.height ≤ src.width)) ∧
    (∀ x y t, (x, y, t) ∈ TerrainSplitter.split_terrain grid_size overlap src →
      (t.height = TerrainSplitter.adjusted_grid_size grid_size src.height ∧
       t.width = TerrainSplitter.adjusted_grid_size grid_size src.height ∧
       y + TerrainSplitter.adjusted_grid_size grid_size src.height ≤ src.height ∧
       x + TerrainSplitter.adjusted_grid_size grid_size src.height ≤ src.width)) := by
  have hst : 1 ≤ TerrainSplitter.step_size grid_size overlap src.height :=
    TerrainSplitter.step_size_pos grid_size overlap src.height hgs hov hh
  have hagsh : TerrainSplitter.adjusted_grid_size grid_size src.height ≤ src.height :=
    min_le_right _ _
  have hcorners : ∀ y x, (y, x) ∈ TerrainSplitter.windowStarts grid_size overlap src ↔
      (TerrainSplitter.step_size grid_size overlap src.height ∣ y ∧
       y + TerrainSplitter.adjusted_grid_size grid_size src.height ≤ src.height ∧
       TerrainSplitter.step_size grid_size overlap src.height ∣ x ∧
       x + TerrainSplitter.adjusted_grid_size grid_size src.height ≤ src.width) := by
    intro y x
    rw [TerrainSplitter.mem_windowStarts]
    dsimp only
    rw [mem_gridStarts _ _ _ _ hst, mem_gridStarts _ _ _ _ hst]
    constructor
    · rintro ⟨⟨_, hd1, hb1⟩, ⟨_, hd2, hb2⟩⟩
      exact ⟨hd1, hb1, hd2, hb2⟩
    · rintro ⟨hd1, hb1, hd2, hb2⟩
      exact ⟨⟨hagsh, hd1, hb1⟩, ⟨by omega, hd2, hb2⟩⟩
  refine ⟨rfl, ?_, rfl, hcorners, ?_⟩
  · rw [Nat.floor_div_nat, Nat.floor_natCast]
    rfl
  · intro x y t hmem
    unfold TerrainSplitter.split_terrain at hmem
    rw [List.mem_filterMap] at hmem
    obtain ⟨⟨y', x'⟩, hws, hf⟩ := hmem
    dsimp only at hf
    by_cases hcond : (crop src y' x' (TerrainSplitter.adjusted_grid_size grid_size src.height)
        (TerrainSplitter.adjusted_grid_size grid_size src.height)).size = 0 ∨
        TerrainSplitter.tileIsBackground (crop src y' x'
          (TerrainSplitter.adjusted_grid_size grid_size src.height)
          (TerrainSplitter.adjusted_grid_size grid_size src.height)) = true
    · rw [if_pos hcond] at hf
      exact absurd hf (by simp)
    · rw [if_neg hcond] at hf
      simp only [Option.some.injEq, Prod.mk.injEq] at hf
      obtain ⟨rfl, rfl, rfl⟩ := hf
      obtain ⟨_, hb1, _, hb2⟩ := (hcorners _ _).1 hws
      unfold crop
      dsimp only
      refine ⟨by omega, by omega, hb1, hb2⟩

theorem C3_splitter_geometry_witness :
    1 ≤ 4 ∧ 1 < 4 ∧ 1 ≤ stripe16.height ∧
    ((TerrainSplitter.adjusted_grid_size 4 stripe16.height = min 4 stripe16.height) ∧
     (TerrainSplitter.adjusted_overlap 4 1 stripe16.height =
       Nat.floor ((TerrainSplitter.adjusted_grid_size 4 stripe16.height * 1 : ℕ) / (4 : ℚ))) ∧
     (TerrainSplitter.step_size 4 1 stripe16.height =
       TerrainSplitter.adjusted_grid_size 4 stripe16.height -
         TerrainSplitter.adjusted_overlap 4 1 stripe16.height) ∧
     (∀ y x, (y, x) ∈ TerrainSplitter.windowStarts 4 1 stripe16 ↔
       (TerrainSplitter.step_size 4 1 stripe16.height ∣ y ∧
        y + TerrainSplitter.adjusted_grid_size 4 stripe16.height ≤ stripe16.height ∧
        TerrainSplitter.step_size 4 1 stripe16.height ∣ x ∧
        x + TerrainSplitter.adjusted_grid_size 4 stripe16.height ≤ stripe16.width)) ∧
     (∀ x y t, (x, y, t) ∈ TerrainSplitter.split_terrain 4 1 stripe16 →
       (t.height = TerrainSplitter.adjusted_grid_size 4 stripe16.height ∧
        t.width = TerrainSplitter.adjusted_grid_size 4 stripe16.height ∧
        y + TerrainSplitter.adjusted_grid_size 4 stripe16.height ≤ stripe16.height ∧
        x + TerrainSplitter.adjusted_grid_size 4 stripe16.height ≤ stripe16.width))) :=
  ⟨by norm_num, by norm_num, by decide,
    C3_splitter_geometry 4 1 stripe16 (by norm_num) (by norm_num) (by decide)⟩

/-! ### C9: per-item failure isolation in the metrics generator -/

theorem MetricsGenerator.process_file_writes (lg : ℕ → ℚ)
    (readTiff : String → Except String NpGrid) (p pth : String)
    (rec : List (String × JVal)) :
    (pth, rec) ∈ (MetricsGenerator.process_file lg readTiff p).2 ↔
      ((MetricsGenerator.process_file lg readTiff p).1 = some rec ∧
        pth = MetricsGenerator.with_suffix_json p) := by
  unfold MetricsGenerator.process_file
  rcases hr : readTiff p with e | g
  · simp
  · rcases hm : MetricsGenerator.compute_metrics lg g with em | m
    · simp [hm]
    · simp only [hm, List.mem_singleton, Prod.mk.injEq, Option.some.injEq]
      constructor
      · rintro ⟨rfl, rfl⟩
        exact ⟨rfl, rfl⟩
      · rintro ⟨rfl, rfl⟩
        exact ⟨rfl, rfl⟩

/-- C9: in the generator batch path the result list has one entry per
input file in order, an entry is `none` exactly when reading or the
metrics computation of that tile failed (so one failure never blocks the
rest of the batch), and a metrics record file is written for a tile if
and only if that tile's full computation succeeded. -/
theorem C9_generator_per_item (lg : ℕ → ℚ)
    (readTiff : String → Except String NpGrid) (files : List String) :
    ((MetricsGenerator.process_directory lg readTiff files).1.length = files.length) ∧
    (∀ i : ℕ, (MetricsGenerator.process_directory lg readTiff files).1[i]? =
      (files[i]?).map (fun p => (MetricsGenerator.process_file lg readTiff p).1)) ∧
    (∀ p ∈ files, ((MetricsGenerator.process_file lg readTiff p).1 = none ↔
      ∀ g, readTiff p = .ok g →
        FractalAnalyzer.isErr (MetricsGenerator.compute_metrics lg g) = true)) ∧
    (∀ pth rec, (pth, rec) ∈ (MetricsGenerator.process_directory lg readTiff files).2 ↔
      ∃ p ∈ files, (MetricsGenerator.process_file lg readTiff p).1 = some rec ∧
        pth = MetricsGenerator.with_suffix_json p) := by
  refine ⟨?_, ?_, ?_, ?_⟩
  · unfold MetricsGenerator.process_directory
    exact List.length_map _ _
  · intro i
    unfold MetricsGenerator.process_directory
    dsimp only
    exact List.getElem?_map _ _ _
  · intro p _
    unfold MetricsGenerator.process_file
    rcases hr : readTiff p with e | g
    · simp [hr]
    · rcases hm : MetricsGenerator.compute_metrics lg g with em | m
      · simp [hr, hm, FractalAnalyzer.isErr]
      · simp [hr, hm, FractalAnalyzer.isErr]
  · intro pth rec
    unfold MetricsGenerator.process_directory
    rw [List.mem_flatMap]
    constructor
    · rintro ⟨p, hp, hmem⟩
      obtain ⟨h1, h2⟩ := (MetricsGenerator.process_file_writes lg readTiff p pth rec).1 hmem
      exact ⟨p, hp, h1, h2⟩
    · rintro ⟨p, hp, h1, h2⟩
      exact ⟨p, hp, (MetricsGenerator.process_file_writes lg readTiff p pth rec).2 ⟨h1, h2⟩⟩

theorem C9_generator_per_item_witness :
    ((MetricsGenerator.process_directory lgId
        (fun p => if p = "bad.tif" then .error "io failure" else .ok stripe16)
        ["a.tif", "bad.tif"]).1.length = ["a.tif", "bad.tif"].length) ∧
    (∀ i : ℕ, (MetricsGenerator.process_directory lgId
        (fun p => if p = "bad.tif" then .error "io failure" else .ok stripe16)
        ["a.tif", "bad.tif"]).1[i]? =
      ((["a.tif", "bad.tif"] : List String)[i]?).map
        (fun p => (MetricsGenerator.process_file lgId
          (fun p => if p = "bad.tif" then .error "io failure" else .ok stripe16) p).1)) ∧
    (∀ p ∈ (["a.tif", "bad.tif"] : List String),
      ((MetricsGenerator.process_file lgId
          (fun p => if p = "bad.tif" then .error "io failure" else .ok stripe16) p).1 = none ↔
        ∀ g, (if p = "bad.tif" then Except.error "io failure" else Except.ok stripe16) = .ok g →
          FractalAnalyzer.isErr (MetricsGenerator.compute_metrics lgId g) = true)) ∧
    (∀ pth rec, (pth, rec) ∈ (MetricsGenerator.process_directory lgId
        (fun p => if p = "bad.tif" then .error "io failure" else .ok stripe16)
        ["a.tif", "bad.tif"]).2 ↔
      ∃ p ∈ (["a.tif", "bad.tif"] : List String),
        (MetricsGenerator.process_file lgId
          (fun p => if p = "bad.tif" then .error "io failure" else .ok stripe16) p).1 = some rec ∧
        pth = MetricsGenerator.with_suffix_json p) :=
  C9_generator_per_item lgId
    (fun p => if p = "bad.tif" then .error "io failure" else .ok stripe16)
    ["a.tif", "bad.tif"]

/-! ### C2: chunk filtering in the terrain analyzer -/

theorem TerrainAnalyzer.tile_result_eq_some (lg : ℕ → ℚ) (gs : ℕ) (data : NpGrid)
    (sy cid y x : ℕ) (m : TerrainAnalyzer.ChunkMetrics) :
    TerrainAnalyzer.tile_result lg gs data sy cid y x = some m ↔
      (¬((crop data y x gs gs).size = 0 ∨ validCells (crop data y x gs gs) = []) ∧
       ∃ fdv rsq, FractalAnalyzer.compute_fractal_dimension lg (crop data y x gs gs) =
           .ok (some fdv, rsq) ∧ 1 / 2 < rsq ∧
         m = { grid_id := (cid, x, sy + y), position := (x, sy + y), size := gs,
               fractal_dimension := fdv, r_squared := rsq,
               mean_elevation := qMean (validCells (crop data y x gs gs)),
               var_elevation := qVar (validCells (crop data y x gs gs)) }) := by
  simp only [TerrainAnalyzer.tile_result]
  by_cases hskip : ((crop data y x gs gs).size = 0 ∨ validCells (crop data y x gs gs) = [])
  · rw [if_pos hskip]
    simp [hskip]
  · rw [if_neg hskip]
    rcases hc : FractalAnalyzer.compute_fractal_dimension lg (crop data y x gs gs)
      with e | ⟨fd, rsq⟩
    · simp [hc, hskip]
    · rcases fd with _ | fdv
      · simp [hc, hskip]
      · by_cases hrq : 1 / 2 < rsq
        · simp only [hc, if_pos hrq, Option.some.injEq, Except.ok.injEq, Prod.mk.injEq]
          constructor
          · rintro rfl
            exact ⟨hskip, fdv, rsq, ⟨rfl, rfl⟩, hrq, rfl⟩
          · rintro ⟨_, fdv2, rsq2, ⟨hfd, hrs⟩, _, rfl⟩
            subst hfd
            subst hrs
            rfl
        · simp only [hc, if_neg hrq, Except.ok.injEq, Prod.mk.injEq]
          constructor
          · intro h
            exact absurd h (by simp)
          · rintro ⟨_, fdv2, rsq2, ⟨hfd, hrs⟩, hgt, _⟩
            subst hrs
            exact absurd hgt hrq

/-- C2: in the chunked pass a tile is skipped when empty or entirely NaN;
a tile whose estimate is computed is kept exactly when the fractal
dimension is not NaN and the r squared exceeds 0.5; the kept tiles of a
chunk are exactly those collected by process_chunk; inside a yielded
chunk summary the interesting tiles are exactly those kept tiles with
`|fd - mean|` above twice the standard deviation (compared here on
squares) and r squared above 0.9, with mean and deviation taken over
that chunk alone; and a chunk with zero kept tiles yields no summary. -/
theorem C2_chunk_filtering (lg : ℕ → ℚ) (grid_size chunk_size : ℕ) (data src : NpGrid)
    (start_y chunk_id : ℕ) :
    (∀ y x, ((crop data y x grid_size grid_size).size = 0 ∨
        validCells (crop data y x grid_size grid_size) = []) →
      TerrainAnalyzer.tile_result lg grid_size data start_y chunk_id y x = none) ∧
    (∀ y x, (∃ m, TerrainAnalyzer.tile_result lg grid_size data start_y chunk_id y x = some m) ↔
      (¬((crop data y x grid_size grid_size).size = 0 ∨
          validCells (crop data y x grid_size grid_size) = []) ∧
       ∃ fd rsq, FractalAnalyzer.compute_fractal_dimension lg
           (crop data y x grid_size grid_size) = .ok (fd, rsq) ∧
         fd.isSome = true ∧ 1 / 2 < rsq)) ∧
    (∀ m, m ∈ TerrainAnalyzer.process_chunk lg grid_size data start_y chunk_id ↔
      ∃ p ∈ TerrainAnalyzer.tileStarts grid_size data,
        TerrainAnalyzer.tile_result lg grid_size data start_y chunk_id p.1 p.2 = some m) ∧
    (∀ res, TerrainAnalyzer.chunk_result lg grid_size chunk_size src chunk_id start_y =
        some res →
      (res.all_regions = TerrainAnalyzer.process_chunk lg grid_size
          (crop src start_y 0 (min (start_y + chunk_size + grid_size) src.height - start_y)
            src.width) start_y chunk_id ∧
       res.mean_fractal_dim = qMean (res.all_regions.map (fun r => r.fractal_dimension)) ∧
       res.var_fractal_dim = qVar (res.all_regions.map (fun r => r.fractal_dimension)) ∧
       (∀ m, m ∈ res.interesting_regions ↔ (m ∈ res.all_regions ∧
         4 * res.var_fractal_dim < (m.fractal_dimension - res.mean_fractal_dim) ^ 2 ∧
         9 / 10 < m.r_squared)))) ∧
    (TerrainAnalyzer.chunk_result lg grid_size chunk_size src chunk_id start_y = none ↔
      TerrainAnalyzer.process_chunk lg grid_size
        (crop src start_y 0 (min (start_y + chunk_size + grid_size) src.height - start_y)
          src.width) start_y chunk_id = []) ∧
    (∀ r ∈ TerrainAnalyzer.analyze lg grid_size chunk_size src, r.all_regions ≠ []) := by
  have hsome : ∀ cid2 sy2 res2,
      TerrainAnalyzer.chunk_result lg grid_size chunk_size src cid2 sy2 = some res2 →
      (res2.all_regions = TerrainAnalyzer.process_chunk lg grid_size
          (crop src sy2 0 (min (sy2 + chunk_size + grid_size) src.height - sy2)
            src.width) sy2 cid2 ∧
       res2.mean_fractal_dim = qMean (res2.all_regions.map (fun r => r.fractal_dimension)) ∧
       res2.var_fractal_dim = qVar (res2.all_regions.map (fun r => r.fractal_dimension)) ∧
       res2.all_regions ≠ [] ∧
       res2.interesting_regions = res2.all_regions.filter
         (TerrainAnalyzer.interestingTest res2.mean_fractal_dim res2.var_fractal_dim)) := by
    intro cid2 sy2 res2 h
    simp only [TerrainAnalyzer.chunk_result] at h
    split at h
    · exact absurd h (by simp)
    · rename_i hres
      injection h with h
      subst h
      exact ⟨rfl, rfl, rfl, hres, rfl⟩
  refine ⟨?_, ?_, ?_, ?_, ?_, ?_⟩
  · intro y x h
    simp only [TerrainAnalyzer.tile_result]
    rw [if_pos h]
  · intro y x
    constructor
    · rintro ⟨m, hm⟩
      obtain ⟨hns, fdv, rsq, hok, hrq, _⟩ :=
        (TerrainAnalyzer.tile_result_eq_some lg grid_size data start_y chunk_id y x m).1 hm
      exact ⟨hns, some fdv, rsq, hok, rfl, hrq⟩
    · rintro ⟨hns, fd, rsq, hok, hsome2, hrq⟩
      rcases fd with _ | fdv
      · simp at hsome2
      · exact ⟨_, (TerrainAnalyzer.tile_result_eq_some lg grid_size data start_y chunk_id
          y x _).2 ⟨hns, fdv, rsq, hok, hrq, rfl⟩⟩
  · intro m
    simp only [TerrainAnalyzer.process_chunk, List.mem_filterMap]
  · intro res h
    obtain ⟨h1, h2, h3, _, h5⟩ := hsome chunk_id start_y res h
    refine ⟨h1, h2, h3, ?_⟩
    intro m
    rw [h5, List.mem_filter]
    unfold TerrainAnalyzer.interestingTest
    simp [Bool.and_eq_true, decide_eq_true_eq]
  · simp only [TerrainAnalyzer.chunk_result]
    split
    · rename_i hres
      simp [hres]
    · rename_i hres
      simp [hres]
  · intro r hr
    unfold TerrainAnalyzer.analyze at hr
    rw [List.mem_filterMap] at hr
    obtain ⟨p, _, hcr⟩ := hr
    exact (hsome p.1 p.2 r hcr).2.2.2.1

theorem C2_chunk_filtering_witness :
    TerrainAnalyzer.chunk_result lgId 16 1000 stripe16 0 0 = none ↔
      TerrainAnalyzer.process_chunk lgId 16
        (crop stripe16 0 0 (min (0 + 1000 + 16) stripe16.height - 0) stripe16.width) 0 0 = [] :=
  (C2_chunk_filtering lgId 16 1000 stripe16 stripe16 0 0).2.2.2.2.1

/-! ### C4: persisted metrics record fields -/

theorem FractalAnalyzer.cfd_ok_eq (lg : ℕ → ℚ) (g : NpGrid) (r : Option ℚ × ℚ)
    (h : FractalAnalyzer.compute_fractal_dimension lg g = .ok r) :
    r = (FractalAnalyzer.negOlsSlope (FractalAnalyzer.logPoints lg g),
         FractalAnalyzer.olsRsq (FractalAnalyzer.logPoints lg g)) := by
  unfold FractalAnalyzer.compute_fractal_dimension at h
  split_ifs at h
  exact (Except.ok.inj h).symm

/-- C4 (amended): every record persisted by the terrain-analyzer path has
exactly the fields grid_id, fractal_dimension, r_squared,
mean_elevation, std_elevation, position and size (no min or max
elevation), every record persisted by the metrics-generator path has
exactly the fields grid_id, fractal_dimension, r_squared,
mean_elevation, std_elevation, min_elevation, max_elevation, crs,
transform and size (no position), and on both paths the stored
r_squared lies in the range 0..1. -/
theorem C4_metrics_record_fields (lg : ℕ → ℚ) (grid_size : ℕ) (data : NpGrid)
    (start_y chunk_id : ℕ) (readTiff : String → Except String NpGrid) (p : String) :
    (∀ m ∈ TerrainAnalyzer.process_chunk lg grid_size data start_y chunk_id,
      ((TerrainAnalyzer.chunk_json m).map Prod.fst =
        ["grid_id", "fractal_dimension", "r_squared", "mean_elevation",
         "std_elevation", "position", "size"] ∧
       0 ≤ m.r_squared ∧ m.r_squared ≤ 1)) ∧
    (∀ rec, (MetricsGenerator.process_file lg readTiff p).1 = some rec →
      (rec.map Prod.fst =
        ["grid_id", "fractal_dimension", "r_squared", "mean_elevation",
         "std_elevation", "min_elevation", "max_elevation", "crs", "transform", "size"] ∧
       ∃ q, ("r_squared", JVal.num q) ∈ rec ∧ 0 ≤ q ∧ q ≤ 1)) := by
  constructor
  · intro m hm
    unfold TerrainAnalyzer.process_chunk at hm
    rw [List.mem_filterMap] at hm
    obtain ⟨pos, _, htile⟩ := hm
    obtain ⟨_, fdv, rsq, hok, _, rfl⟩ :=
      (TerrainAnalyzer.tile_result_eq_some lg grid_size data start_y chunk_id
        pos.1 pos.2 _).1 htile
    have hval := FractalAnalyzer.cfd_ok_eq lg _ _ hok
    have hrsq : rsq = FractalAnalyzer.olsRsq (FractalAnalyzer.logPoints lg
        (crop data pos.1 pos.2 grid_size grid_size)) := congrArg Prod.snd hval
    refine ⟨rfl, ?_, ?_⟩
    · show 0 ≤ rsq
      rw [hrsq]
      exact FractalAnalyzer.olsRsq_nonneg _
    · show rsq ≤ 1
      rw [hrsq]
      exact FractalAnalyzer.olsRsq_le_one _
  · intro rec hrec
    unfold MetricsGenerator.process_file at hrec
    rcases hr : readTiff p with e | g
    · rw [hr] at hrec
      exact absurd hrec (by simp)
    · rw [hr] at hrec
      dsimp only at hrec
      rcases hm : MetricsGenerator.compute_metrics lg g with em | mtr
      · rw [hm] at hrec
        exact absurd hrec (by simp)
      · rw [hm] at hrec
        simp only [Option.some.injEq] at hrec
        subst hrec
        unfold MetricsGenerator.compute_metrics at hm
        rcases hc : FractalAnalyzer.compute_fractal_dimension lg g with e2 | r
        · rw [hc] at hm
          exact absurd hm (by simp [Except.map])
        · rw [hc] at hm
          simp only [Except.map, Except.ok.injEq] at hm
          subst hm
          have hval := FractalAnalyzer.cfd_ok_eq lg g r hc
          have hrsq : r.2 = FractalAnalyzer.olsRsq (FractalAnalyzer.logPoints lg g) :=
            congrArg Prod.snd hval
          refine ⟨rfl, r.2, ?_, ?_, ?_⟩
          · simp [MetricsGenerator.gen_record]
          · rw [hrsq]
            exact FractalAnalyzer.olsRsq_nonneg _
          · rw [hrsq]
            exact FractalAnalyzer.olsRsq_le_one _

set_option maxRecDepth 1000000 in
unseal Rat.add Rat.mul Rat.inv Rat.sub in
/-- C4 (counterexample): on a concrete 16 by 16 input a record is
persisted on the terrain path whose field list lacks min_elevation and
max_elevation, and a record is persisted on the generator path whose
field list lacks position, so no persisted record carries all the
claimed fields. -/
theorem C4_counterexample :
    (TerrainAnalyzer.process_chunk lgId 16 stripe16 0 0).map
        (fun m => (TerrainAnalyzer.chunk_json m).map Prod.fst) =
      [["grid_id", "fractal_dimension", "r_squared", "mean_elevation",
        "std_elevation", "position", "size"]] ∧
    "min_elevation" ∉ ["grid_id", "fractal_dimension", "r_squared", "mean_elevation",
        "std_elevation", "position", "size"] ∧
    ((MetricsGenerator.process_file lgId (fun _ => .ok stripe16) "tile.tif").1.map
        (fun r => r.map Prod.fst)) =
      some ["grid_id", "fractal_dimension", "r_squared", "mean_elevation",
        "std_elevation", "min_elevation", "max_elevation", "crs", "transform", "size"] ∧
    "position" ∉ ["grid_id", "fractal_dimension", "r_squared", "mean_elevation",
        "std_elevation", "min_elevation", "max_elevation", "crs", "transform", "size"] :=
  ⟨by decide, by decide, by decide, by decide⟩

set_option maxRecDepth 1000000 in
unseal Rat.add Rat.mul Rat.inv Rat.sub in
theorem C4_metrics_record_fields_witness :
    ({ grid_id := (0, 0, 0), position := (0, 0), size := 16, fractal_dimension := 3,
       r_squared := 1, mean_elevation := 1 / 2, var_elevation := 1 / 4 } :
         TerrainAnalyzer.ChunkMetrics) ∈ TerrainAnalyzer.process_chunk lgId 16 stripe16 0 0 ∧
    ((TerrainAnalyzer.chunk_json
        { grid_id := (0, 0, 0), position := (0, 0), size := 16, fractal_dimension := 3,
          r_squared := 1, mean_elevation := 1 / 2, var_elevation := 1 / 4 }).map Prod.fst =
      ["grid_id", "fractal_dimension", "r_squared", "mean_elevation",
       "std_elevation", "position", "size"] ∧
     0 ≤ ({ grid_id := (0, 0, 0), position := (0, 0), size := 16, fractal_dimension := 3,
            r_squared := 1, mean_elevation := 1 / 2, var_elevation := 1 / 4 } :
              TerrainAnalyzer.ChunkMetrics).r_squared ∧
     ({ grid_id := (0, 0, 0), position := (0, 0), size := 16, fractal_dimension := 3,
        r_squared := 1, mean_elevation := 1 / 2, var_elevation := 1 / 4 } :
          TerrainAnalyzer.ChunkMetrics).r_squared ≤ 1) :=
  ⟨by decide,
    (C4_metrics_record_fields lgId 16 stripe16 0 0 (fun _ => .ok stripe16) "tile.tif").1
      _ (by decide)⟩

theorem C8_thread_env_settings_witness :
    (∀ p ∈ TerrainSplitter.env_settings 8 (1 / 2), p.2 = 1) ↔
      TerrainSplitter.n_cpus 8 (1 / 2) = 1 :=
  (C8_thread_env_settings 8 (1 / 2)).2.2

end Xenarch
